import Mathlib

/-
Shallow embedding of the reconciliation core of ib-kubernetes
(src/pkg/daemon/daemon.go): the add pass `AddPeriodicUpdate` (lines
127-313) and the delete pass `DeletePeriodicUpdate` (lines 315-428).

External collaborators (the kubernetes client, the GUID pool, the subnet
manager client, the JSON codec and the pod-annotation parser from the
network-attachment-definition client library) are modelled as a record of
deterministic oracles (`Env`); every call the daemon makes to a
collaborator is recorded in an event trace, so that claims of the form
"no SM call is made" or "ReleaseGUID happens only after
RemoveGuidsFromPKey succeeded" are statements about the trace.
The per-pass state (the pending-work maps `addSet`/`deleteSet`, the
cross-network `podNetworksMap`, failed/passed pod lists) is threaded
explicitly.
-/

set_option autoImplicit false

namespace IbKube

/-- Association-list lookup with string keys; first binding wins
(Go map read, and lookup of the first matching network selection). -/
def lookupA {α : Type} : List (String × α) → String → Option α
| [], _ => none
| (k', v) :: rest, k => if k' = k then some v else lookupA rest k

/-- Association-list update: replace the first binding of the key, or
append a fresh binding (Go map write). -/
def setA {α : Type} : List (String × α) → String → α → List (String × α)
| [], k, v => [(k, v)]
| (k', v') :: rest, k, v =>
  if k' = k then (k, v) :: rest else (k', v') :: setA rest k v

/-- Projection of `v1.NetworkSelectionElement`: the network name and the
optional CNI-args map (string-valued entries are the only ones the core
reads or writes: the `guid` entry and the InfiniBand marker). `none`
models a nil `CNIArgs` pointer. -/
structure NetworkSelectionElement where
  name : String
  cniArgs : Option (List (String × String))
deriving Repr, DecidableEq

/-- Projection of `kapi.Pod`: UID, namespace, name and the string
annotations map. -/
structure Pod where
  uid : String
  ns : String
  name : String
  annots : List (String × String)
deriving Repr, DecidableEq

/-- Projection of the IB-SRIOV CNI spec: `PKey` is the only field the
daemon consumes. -/
structure IbSriovCniSpec where
  pkey : String
deriving Repr, DecidableEq

/-- A value stored in the watcher's add/delete map: either a pod list
(the `[]*kapi.Pod` case of the type assertion at daemon.go:135/322) or
some other value for which the assertion fails. -/
inductive MapValue where
| pods : List Pod → MapValue
| other : MapValue
deriving Repr, DecidableEq

/-- `utils.InfiniBandAnnotation`. -/
def infiniBandAnnotKey : String := "mellanox.infiniband.app"

/-- `utils.ConfiguredInfiniBandPod`. -/
def configuredInfiniBandPod : String := "configured"

/-- `v1.NetworkAttachmentAnnot`, the pod annotation key under which the
network selections are serialized. -/
def networkAttachmentAnnotKey : String := "k8s.v1.cni.cncf.io/networks"

/-- Modelled from the spec: `utils.GetPodNetwork` (pkg/utils, not under
src/) locates the selection entry for the network by name; error when
absent. -/
def getPodNetwork (networks : List NetworkSelectionElement) (nn : String) :
    Option NetworkSelectionElement :=
  networks.find? (fun e => e.name = nn)

/-- Modelled from the spec: `utils.GetPodNetworkGuid` (pkg/utils, not
under src/) reads the `guid` entry of the selection's CNI-args; error
when CNI-args is nil or the entry is absent. -/
def getPodNetworkGuid (e : NetworkSelectionElement) : Option String :=
  match e.cniArgs with
  | none => none
  | some args => lookupA args "guid"

/-- Modelled from the spec: `utils.SetPodNetworkGuid` (pkg/utils, not
under src/) writes the GUID back into the selection entry's CNI-args,
creating the map when nil. -/
def setPodNetworkGuid (e : NetworkSelectionElement) (g : String) :
    NetworkSelectionElement :=
  { e with cniArgs := some (setA (e.cniArgs.getD []) "guid" g) }

/-- Modelled from the spec: `utils.IsPodNetworkConfiguredWithInfiniBand`
(pkg/utils, not under src/): the selection's CNI-args carry the marker
`"mellanox.infiniband.app": "configured"`. -/
def isConfiguredWithInfiniBand (e : NetworkSelectionElement) : Bool :=
  match e.cniArgs with
  | none => false
  | some args => lookupA args infiniBandAnnotKey == some configuredInfiniBandPod

/-- Hex digit value. -/
def hexDigitVal (c : Char) : Option Nat :=
  if '0'.toNat ≤ c.toNat ∧ c.toNat ≤ '9'.toNat then some (c.toNat - '0'.toNat)
  else if 'a'.toNat ≤ c.toNat ∧ c.toNat ≤ 'f'.toNat then some (c.toNat - 'a'.toNat + 10)
  else if 'A'.toNat ≤ c.toNat ∧ c.toNat ≤ 'F'.toNat then some (c.toNat - 'A'.toNat + 10)
  else none

/-- Fold a hex digit string into a number; `none` on a non-hex character. -/
def hexToNat (cs : List Char) : Option Nat :=
  cs.foldl (fun acc c => acc.bind (fun n => (hexDigitVal c).map (fun d => 16 * n + d)))
    (some 0)

/-- Modelled from the spec: `utils.ParsePKey` (pkg/utils, not under
src/). Hex string with optional 0x prefix, case-insensitive, 16-bit;
the top (membership) bit is masked off; the reserved values 0x0000
(default partition) and 0x7fff (management partition) are rejected. -/
def parsePKey (s : String) : Option Nat :=
  let body :=
    match s.toList with
    | '0' :: 'x' :: rest => rest
    | '0' :: 'X' :: rest => rest
    | cs => cs
  if body = [] then none
  else
    match hexToNat body with
    | none => none
    | some n =>
      if n < 0x10000 then
        let masked := n % 0x8000
        if masked = 0 ∨ masked = 0x7fff then none else some masked
      else none

/-- Outcome of `kubeClient.SetAnnotationsOnPod`: success, an error whose
message contains "not found", or any other error (daemon.go:280-285). -/
inductive SetAnnotsRes where
| ok
| errNotFound
| errOther
deriving Repr, DecidableEq

/-- One recorded call to an external collaborator, with its result where
the daemon branches on it. -/
inductive Event where
| getNetAtt (ns nn : String)
| allocGUID (uid nn g : String) (ok : Bool)
| genGUID (res : Option String)
| releaseGUID (g : String)
| setAnnots (uid : String) (res : SetAnnotsRes)
| addGuidsToPKey (pkey : Nat) (guids : List String) (ok : Bool)
| removeGuidsFromPKey (pkey : Nat) (guids : List String) (ok : Bool)
deriving Repr, DecidableEq

/-- Is the event a subnet-manager call? -/
def Event.isSM : Event → Bool
| .addGuidsToPKey _ _ _ => true
| .removeGuidsFromPKey _ _ _ => true
| _ => false

/-- Deterministic oracles for the external collaborators. Each function
answers "what would this call return": the daemon's control flow (the
code under verification) is everything layered on top. `genGUID` is
keyed by a per-pass call counter, mirroring that successive
`GenerateGUID` calls may return different GUIDs. -/
structure Env where
  getNetAttConfig : String → String → Option String
  unmarshalConfig : String → Option (List (String × String))
  getIbSriov : List (String × String) → Option IbSriovCniSpec
  parsePodNetAnn : Pod → Option (List NetworkSelectionElement)
  allocOk : String → String → String → Bool
  genGUID : Nat → Option String
  parseMAC : String → Option String
  marshalNetworks : List NetworkSelectionElement → Option String
  setAnnotsRes : String → SetAnnotsRes
  addGuidsOk : Nat → List String → Bool
  removeGuidsOk : Nat → List String → Bool

/-- The cross-network `podNetworksMap` (daemon.go:132): pod UID to its
parsed (and possibly mutated) network selections. -/
def PNM : Type := List (String × List NetworkSelectionElement)

/-- State threaded through the add pass's per-pod loop
(daemon.go:172-249): `podNetworksMap`, the GUID batch, passed and failed
pods, and the `GenerateGUID` call counter. -/
structure AddLoopState where
  pnm : PNM
  guidList : List String
  passed : List Pod
  failed : List Pod
  genCount : Nat

/-- Replace the first selection element with the given name (pointer
mutation of the element `utils.GetPodNetwork` returned). -/
def updateNetworkNamed (networks : List NetworkSelectionElement) (nn : String)
    (f : NetworkSelectionElement → NetworkSelectionElement) :
    List NetworkSelectionElement :=
  match networks with
  | [] => []
  | e :: rest => if e.name = nn then f e :: rest else e :: updateNetworkNamed rest nn f

/-- Body of the add pass's per-pod loop once the pod's selections are at
hand (daemon.go:190-248). -/
def processAddPodWithNetworks (env : Env) (nn : String) (st : AddLoopState)
    (pod : Pod) (networks : List NetworkSelectionElement) :
    AddLoopState × List Event :=
  match getPodNetwork networks nn with
  | none => ({ st with failed := st.failed ++ [pod] }, [])
  | some network =>
    match getPodNetworkGuid network with
    | some allocatedGuid =>
      -- user allocated guid manually (daemon.go:202-215)
      if env.allocOk pod.uid nn allocatedGuid then
        ((match env.parseMAC allocatedGuid with
          | none => { st with failed := st.failed ++ [pod] }
          | some guidAddr =>
            { st with guidList := st.guidList ++ [guidAddr], passed := st.passed ++ [pod] }),
         [Event.allocGUID pod.uid nn allocatedGuid true])
      else
        ({ st with failed := st.failed ++ [pod] },
         [Event.allocGUID pod.uid nn allocatedGuid false])
    | none =>
      -- pool-generated guid (daemon.go:216-245)
      match env.genGUID st.genCount with
      | none =>
        ({ st with failed := st.failed ++ [pod], genCount := st.genCount + 1 },
         [Event.genGUID none])
      | some guidAddr =>
        if env.allocOk pod.uid nn guidAddr then
          let networks2 := updateNetworkNamed networks nn
            (fun e => setPodNetworkGuid e guidAddr)
          let st2 : AddLoopState :=
            { st with pnm := setA st.pnm pod.uid networks2, genCount := st.genCount + 1 }
          ((match env.marshalNetworks networks2 with
            | none => { st2 with failed := st2.failed ++ [pod] }
            | some netAnn =>
              { st2 with guidList := st2.guidList ++ [guidAddr],
                         passed := st2.passed ++
                           [{ pod with annots := setA pod.annots networkAttachmentAnnotKey netAnn }] }),
           [Event.genGUID (some guidAddr), Event.allocGUID pod.uid nn guidAddr true])
        else
          ({ st with failed := st.failed ++ [pod], genCount := st.genCount + 1 },
           [Event.genGUID (some guidAddr), Event.allocGUID pod.uid nn guidAddr false])

/-- One iteration of the add pass's per-pod loop (daemon.go:176-249):
the pod's selections come from `podNetworksMap` when already parsed,
otherwise from parsing its annotations (failure puts the pod in
`failedPods`). -/
def processAddPod (env : Env) (nn : String) (st : AddLoopState) (pod : Pod) :
    AddLoopState × List Event :=
  match lookupA st.pnm pod.uid with
  | some networks => processAddPodWithNetworks env nn st pod networks
  | none =>
    match env.parsePodNetAnn pod with
    | none => ({ st with failed := st.failed ++ [pod] }, [])
    | some networks =>
      processAddPodWithNetworks env nn
        { st with pnm := setA st.pnm pod.uid networks } pod networks

/-- The add pass's per-pod loop over the network's pending pods. -/
def processAddPods (env : Env) (nn : String) :
    AddLoopState → List Pod → AddLoopState × List Event
| st, [] => (st, [])
| st, pod :: rest =>
  let r1 := processAddPod env nn st pod
  let r2 := processAddPods env nn r1.1 rest
  (r2.1, r1.2 ++ r2.2)

/-- State threaded through the add pass's passed-pods annotation loop
(daemon.go:265-294). -/
structure PassedLoopState where
  pnm : PNM
  failed : List Pod
  removedGuids : List String

/-- Mark a selection entry InfiniBand-configured (daemon.go:269).
`CNIArgs` is non-nil for every passed pod; defaulting to the empty map
keeps the function total. -/
def markConfigured (e : NetworkSelectionElement) : NetworkSelectionElement :=
  { e with
      cniArgs := some (setA (e.cniArgs.getD []) infiniBandAnnotKey configuredInfiniBandPod) }

/-- One iteration of the passed-pods loop (daemon.go:267-294): mark the
selection configured, re-serialize, write the annotations back; a
"not found" failure releases the pod's GUID and schedules it for PKey
withdrawal, any other failure adds the pod to `failedPods`. -/
def processPassedPod (env : Env) (nn : String) (st : PassedLoopState)
    (pg : Pod × String) : PassedLoopState × List Event :=
  let pod := pg.1
  let networks2 := updateNetworkNamed ((lookupA st.pnm pod.uid).getD []) nn markConfigured
  let st1 : PassedLoopState := { st with pnm := setA st.pnm pod.uid networks2 }
  match env.marshalNetworks networks2 with
  | none => ({ st1 with failed := st1.failed ++ [pod] }, [])
  | some netAnn =>
    let pod2 : Pod :=
      { pod with annots := setA pod.annots networkAttachmentAnnotKey netAnn }
    match env.setAnnotsRes pod.uid with
    | SetAnnotsRes.ok => (st1, [Event.setAnnots pod.uid SetAnnotsRes.ok])
    | SetAnnotsRes.errOther =>
      ({ st1 with failed := st1.failed ++ [pod2] },
       [Event.setAnnots pod.uid SetAnnotsRes.errOther])
    | SetAnnotsRes.errNotFound =>
      ({ st1 with removedGuids := st1.removedGuids ++ [pg.2] },
       [Event.setAnnots pod.uid SetAnnotsRes.errNotFound, Event.releaseGUID pg.2])

/-- The passed-pods loop over the zipped (pod, guid) batch. -/
def processPassedPods (env : Env) (nn : String) :
    PassedLoopState → List (Pod × String) → PassedLoopState × List Event
| st, [] => (st, [])
| st, pg :: rest =>
  let r1 := processPassedPod env nn st pg
  let r2 := processPassedPods env nn r1.1 rest
  (r2.1, r1.2 ++ r2.2)

/-- How processing one network entry ends: `softFail` is a `continue`
that leaves the entry untouched; `permRemoved` is the `UnSafeRemove` on
IB-SRIOV extraction failure (daemon.go:165); `completed` reaches the
end-of-entry bookkeeping (daemon.go:306-310 / 420-424) with the final
`failedPods`. -/
inductive EntryResult where
| softFail
| permRemoved
| completed (failed : List Pod)
deriving Repr, DecidableEq

/-- Tail of the add pass for one network (daemon.go:265-310): the
passed-pods annotation loop, the best-effort-attempted
`RemoveGuidsFromPKey` for GUIDs of deleted pods — whose failure in fact
`continue`s, skipping the bookkeeping — and the bookkeeping itself. -/
def addEntryFinish (env : Env) (nn : String) (ibSpec : IbSriovCniSpec)
    (st1 : AddLoopState) (tr : List Event) :
    EntryResult × PNM × Nat × List Event :=
  let r := processPassedPods env nn ⟨st1.pnm, st1.failed, []⟩ (st1.passed.zip st1.guidList)
  let pst := r.1
  let tr2 := r.2
  if ibSpec.pkey = "" then (EntryResult.completed pst.failed, pst.pnm, st1.genCount, tr ++ tr2)
  else
    match pst.removedGuids with
    | [] => (EntryResult.completed pst.failed, pst.pnm, st1.genCount, tr ++ tr2)
    | _ :: _ =>
      -- "Already check the parse above": the error is discarded (daemon.go:298)
      let pk := (parsePKey ibSpec.pkey).getD 0
      let ok := env.removeGuidsOk pk pst.removedGuids
      let ev := Event.removeGuidsFromPKey pk pst.removedGuids ok
      if ok then (EntryResult.completed pst.failed, pst.pnm, st1.genCount, tr ++ tr2 ++ [ev])
      else (EntryResult.softFail, pst.pnm, st1.genCount, tr ++ tr2 ++ [ev])

/-- Processing of one add-map entry (daemon.go:133-310), from the type
assertion through the bookkeeping decision, threading `podNetworksMap`
and the generate counter. -/
def processAddEntryCore (env : Env) (nn : String) (v : MapValue)
    (pnm0 : PNM) (gen0 : Nat) : EntryResult × PNM × Nat × List Event :=
  match v with
  | MapValue.other => (EntryResult.softFail, pnm0, gen0, [])
  | MapValue.pods [] => (EntryResult.softFail, pnm0, gen0, [])
  | MapValue.pods (p0 :: rest) =>
    let ev0 := Event.getNetAtt p0.ns nn
    match env.getNetAttConfig p0.ns nn with
    | none => (EntryResult.softFail, pnm0, gen0, [ev0])
    | some cfg =>
      match env.unmarshalConfig cfg with
      | none => (EntryResult.softFail, pnm0, gen0, [ev0])
      | some spec =>
        match env.getIbSriov spec with
        | none => (EntryResult.permRemoved, pnm0, gen0, [ev0])
        | some ibSpec =>
          let r1 := processAddPods env nn ⟨pnm0, [], [], [], gen0⟩ (p0 :: rest)
          let st1 := r1.1
          let tr1 := r1.2
          if ibSpec.pkey = "" then addEntryFinish env nn ibSpec st1 (ev0 :: tr1)
          else
            match st1.guidList with
            | [] => addEntryFinish env nn ibSpec st1 (ev0 :: tr1)
            | _ :: _ =>
              match parsePKey ibSpec.pkey with
              | none => (EntryResult.softFail, st1.pnm, st1.genCount, ev0 :: tr1)
              | some pk =>
                if env.addGuidsOk pk st1.guidList then
                  addEntryFinish env nn ibSpec st1
                    (ev0 :: tr1 ++ [Event.addGuidsToPKey pk st1.guidList true])
                else
                  (EntryResult.softFail, st1.pnm, st1.genCount,
                   ev0 :: tr1 ++ [Event.addGuidsToPKey pk st1.guidList false])

/-- The bookkeeping at the end of an entry (daemon.go:306-310 /
420-424), applied to the entry result: `none` means the entry is
removed from the map. -/
def applyEntryResult (v : MapValue) : EntryResult → Option MapValue
| EntryResult.softFail => some v
| EntryResult.permRemoved => none
| EntryResult.completed failed =>
  if failed = [] then none else some (MapValue.pods failed)

/-- One add-map entry: core processing plus the map effect. -/
def addEntryStep (env : Env) (pnm : PNM) (gen : Nat) (nn : String) (v : MapValue) :
    Option MapValue × PNM × Nat × List Event :=
  let r := processAddEntryCore env nn v pnm gen
  (applyEntryResult v r.1, r.2.1, r.2.2.1, r.2.2.2)

/-- The add pass's loop over all map entries, threading
`podNetworksMap` and the generate counter. -/
def addPassAux (env : Env) :
    PNM → Nat → List (String × MapValue) → List (String × MapValue) × List Event
| _, _, [] => ([], [])
| pnm, gen, (nn, v) :: rest =>
  let r := addEntryStep env pnm gen nn v
  let rst := addPassAux env r.2.1 r.2.2.1 rest
  ((match r.1 with
    | none => rst.1
    | some v' => (nn, v') :: rst.1), r.2.2.2 ++ rst.2)

/-- `daemon.AddPeriodicUpdate` (daemon.go:127-313): drain the add map,
returning the resulting map and the trace of collaborator calls. -/
def AddPeriodicUpdate (env : Env) (m : List (String × MapValue)) :
    List (String × MapValue) × List Event :=
  addPassAux env [] 0 m

/-- State of the delete pass's per-pod loop (daemon.go:358-398). -/
structure DelLoopState where
  guidList : List String
  failed : List Pod

/-- One iteration of the delete pass's per-pod loop (daemon.go:360-398):
parse annotations, find the selection, skip unconfigured networks,
extract and parse the GUID. -/
def processDeletePod (env : Env) (nn : String) (st : DelLoopState) (pod : Pod) :
    DelLoopState :=
  match env.parsePodNetAnn pod with
  | none => { st with failed := st.failed ++ [pod] }
  | some networks =>
    match getPodNetwork networks nn with
    | none => { st with failed := st.failed ++ [pod] }
    | some network =>
      if isConfiguredWithInfiniBand network then
        match getPodNetworkGuid network with
        | none => { st with failed := st.failed ++ [pod] }
        | some g =>
          match env.parseMAC g with
          | none => { st with failed := st.failed ++ [pod] }
          | some guidAddr => { st with guidList := st.guidList ++ [guidAddr] }
      else st

/-- The delete pass's per-pod loop. It makes no collaborator calls. -/
def processDeletePods (env : Env) (nn : String) :
    DelLoopState → List Pod → DelLoopState
| st, [] => st
| st, pod :: rest => processDeletePods env nn (processDeletePod env nn st pod) rest

/-- Processing of one delete-map entry (daemon.go:320-424): SM removal
of the whole batch precedes the pool releases; SM failure `continue`s,
leaving the entry; IB-SRIOV extraction failure is a soft-fail here
(daemon.go:350-355), unlike the add pass. -/
def processDeleteEntryCore (env : Env) (nn : String) (v : MapValue) :
    EntryResult × List Event :=
  match v with
  | MapValue.other => (EntryResult.softFail, [])
  | MapValue.pods [] => (EntryResult.softFail, [])
  | MapValue.pods (p0 :: rest) =>
    let ev0 := Event.getNetAtt p0.ns nn
    match env.getNetAttConfig p0.ns nn with
    | none => (EntryResult.softFail, [ev0])
    | some cfg =>
      match env.unmarshalConfig cfg with
      | none => (EntryResult.softFail, [ev0])
      | some spec =>
        match env.getIbSriov spec with
        | none => (EntryResult.softFail, [ev0])
        | some ibSpec =>
          let st := processDeletePods env nn ⟨[], []⟩ (p0 :: rest)
          if ibSpec.pkey = "" then
            (EntryResult.completed st.failed, ev0 :: st.guidList.map Event.releaseGUID)
          else
            match st.guidList with
            | [] => (EntryResult.completed st.failed, ev0 :: st.guidList.map Event.releaseGUID)
            | _ :: _ =>
              match parsePKey ibSpec.pkey with
              | none => (EntryResult.softFail, [ev0])
              | some pk =>
                if env.removeGuidsOk pk st.guidList then
                  (EntryResult.completed st.failed,
                   [ev0, Event.removeGuidsFromPKey pk st.guidList true] ++
                     st.guidList.map Event.releaseGUID)
                else
                  (EntryResult.softFail,
                   [ev0, Event.removeGuidsFromPKey pk st.guidList false])

/-- One delete-map entry: core processing plus the map effect. -/
def deleteEntryStep (env : Env) (nn : String) (v : MapValue) :
    Option MapValue × List Event :=
  let r := processDeleteEntryCore env nn v
  (applyEntryResult v r.1, r.2)

/-- `daemon.DeletePeriodicUpdate` (daemon.go:315-428): drain the delete
map. -/
def DeletePeriodicUpdate (env : Env) :
    List (String × MapValue) → List (String × MapValue) × List Event
| [] => ([], [])
| (nn, v) :: rest =>
  let r := deleteEntryStep env nn v
  let rst := DeletePeriodicUpdate env rest
  ((match r.1 with
    | none => rst.1
    | some v' => (nn, v') :: rst.1), r.2 ++ rst.2)

/-- Iterated add passes (the `wait.Until` timer loop). -/
def addIter (env : Env) : Nat → List (String × MapValue) → List (String × MapValue)
| 0, m => m
| k + 1, m => addIter env k (AddPeriodicUpdate env m).1

/-- Iterated delete passes. -/
def delIter (env : Env) : Nat → List (String × MapValue) → List (String × MapValue)
| 0, m => m
| k + 1, m => delIter env k (DeletePeriodicUpdate env m).1

/-- Selections of a pod with one pending network selection carrying a
user-supplied GUID for network "ibnet". -/
def netsUser : List NetworkSelectionElement :=
  [{ name := "ibnet", cniArgs := some [("guid", "02:00:00:00:00:00:00:01")] }]

/-- Selections of a pod already marked InfiniBand-configured on "ibnet". -/
def netsCfg : List NetworkSelectionElement :=
  [{ name := "ibnet",
     cniArgs := some [("guid", "02:00:00:00:00:00:00:01"), (infiniBandAnnotKey, configuredInfiniBandPod)] }]

/-- A concrete pod. -/
def podA : Pod := { uid := "u1", ns := "default", name := "p1", annots := [] }

/-- A concrete collaborator environment in which every call succeeds:
the network attachment definition exists, its config parses into an
IB-SRIOV spec with PKey 0x5, the pod's annotations parse to `netsUser`,
pool and SM calls succeed. -/
def baseEnv : Env where
  getNetAttConfig := fun _ _ => some "cfg"
  unmarshalConfig := fun _ => some [("type", "ib-sriov")]
  getIbSriov := fun _ => some { pkey := "0x5" }
  parsePodNetAnn := fun _ => some netsUser
  allocOk := fun _ _ _ => true
  genGUID := fun n => some ("02:00:00:00:00:00:01:0" ++ toString n)
  parseMAC := fun s => some s
  marshalNetworks := fun _ => some "nets"
  setAnnotsRes := fun _ => SetAnnotsRes.ok
  addGuidsOk := fun _ _ => true
  removeGuidsOk := fun _ _ => true

/-- Environment whose network attachment config is malformed JSON. -/
def envMalformedJson : Env :=
  { baseEnv with unmarshalConfig := fun _ => none }

/-- Environment whose network attachment config is well-formed JSON but
carries no IB-SRIOV spec. -/
def envNotIbSriov : Env :=
  { baseEnv with getIbSriov := fun _ => none }

/-- Environment whose IB-SRIOV spec carries the reserved PKey 0x7fff. -/
def envReservedPKey : Env :=
  { baseEnv with getIbSriov := fun _ => some { pkey := "0x7fff" } }

/-- Environment in which the annotation write hits "not found" (the pod
was deleted meanwhile) and the subsequent `RemoveGuidsFromPKey` fails. -/
def envNotFoundRemoveFails : Env :=
  { baseEnv with setAnnotsRes := fun _ => SetAnnotsRes.errNotFound, removeGuidsOk := fun _ _ => false }

/-- Environment for the delete pass: the pod is configured on "ibnet"
and the SM removal fails. -/
def envDelRemoveFails : Env :=
  { baseEnv with parsePodNetAnn := fun _ => some netsCfg, removeGuidsOk := fun _ _ => false }

/-- Environment in which the user-supplied GUID fails to parse as a
hardware address (after a successful pool allocation). -/
def envBadMac : Env :=
  { baseEnv with parseMAC := fun _ => none }

/-- Environment in which the pod's network annotations fail to parse. -/
def envBadPodAnn : Env :=
  { baseEnv with parsePodNetAnn := fun _ => none }

/-- The add-pass per-pod loop result for one network entry of a
singleton map (fresh `podNetworksMap`, generate counter 0). -/
def addLoopResult (env : Env) (nn : String) (pods : List Pod) : AddLoopState :=
  (processAddPods env nn ⟨[], [], [], [], 0⟩ pods).1

/-- The passed-pods loop result that follows `addLoopResult`. -/
def passedLoopResult (env : Env) (nn : String) (pods : List Pod) : PassedLoopState :=
  (processPassedPods env nn
    ⟨(addLoopResult env nn pods).pnm, (addLoopResult env nn pods).failed, []⟩
    ((addLoopResult env nn pods).passed.zip (addLoopResult env nn pods).guidList)).1

/-- The delete-pass per-pod loop result for one network entry. -/
def delLoopResult (env : Env) (nn : String) (pods : List Pod) : DelLoopState :=
  processDeletePods env nn ⟨[], []⟩ pods

/-- Does the event belong to the add pass's per-pod loop (a pool
allocation or generation)? -/
def Event.isPodLoop : Event → Bool
| .allocGUID _ _ _ _ => true
| .genGUID _ => true
| _ => false

/-- Updating one key of an association list leaves the other keys'
lookups unchanged. -/
theorem lookupA_setA_ne {α : Type} (m : List (String × α)) (k1 k2 : String) (v : α)
    (h : k1 ≠ k2) : lookupA (setA m k1 v) k2 = lookupA m k2 := by
  induction m with
  | nil => simp [setA, lookupA, h]
  | cons p rest ih =>
    obtain ⟨k', v'⟩ := p
    by_cases hk : k' = k1
    · subst hk
      simp [setA, lookupA, h]
    · simp [setA, lookupA, hk, ih]

/-- Every event the add pass's per-pod loop body emits is a pool
allocation or generation (daemon.go:176-249 makes no SM, release or
annotation-write calls). -/
theorem processAddPod_events (env : Env) (nn : String) (st : AddLoopState) (pod : Pod) :
    ∀ e ∈ (processAddPod env nn st pod).2, e.isPodLoop = true := by
  intro e he
  unfold processAddPod processAddPodWithNetworks at he
  repeat' split at he
  all_goals simp only [List.mem_cons, List.not_mem_nil, or_false] at he
  all_goals (try rcases he with he | he)
  all_goals (first | (subst he; rfl) | rfl)

/-- Every event the add pass's per-pod loop emits is a pool allocation
or generation. -/
theorem processAddPods_events (env : Env) (nn : String) :
    ∀ (pods : List Pod) (st : AddLoopState),
      ∀ e ∈ (processAddPods env nn st pods).2, e.isPodLoop = true := by
  intro pods
  induction pods with
  | nil => intro st e he; simp [processAddPods] at he
  | cons pod rest ih =>
    intro st e he
    simp only [processAddPods, List.mem_append] at he
    rcases he with he | he
    · exact processAddPod_events env nn st pod e he
    · exact ih _ e he

/-- A pod-loop event is not an SM call. -/
theorem isPodLoop_not_isSM (e : Event) (h : e.isPodLoop = true) : e.isSM = false := by
  cases e <;> simp_all [Event.isPodLoop, Event.isSM]

/-- A pod-loop event is not a pool release. -/
theorem isPodLoop_not_release (e : Event) (h : e.isPodLoop = true) :
    ∀ g, e ≠ Event.releaseGUID g := by
  cases e <;> simp_all [Event.isPodLoop]

/-- The add pass's per-pod loop body either adds the pod to
`failedPods` (leaving the GUID batch and the passed list untouched) or
appends it (possibly with rewritten annotations) to the passed list
together with exactly one batch GUID. -/
theorem processAddPodWithNetworks_cases (env : Env) (nn : String) (st : AddLoopState)
    (pod : Pod) (networks : List NetworkSelectionElement) :
    ((processAddPodWithNetworks env nn st pod networks).1.failed = st.failed ++ [pod] ∧
      (processAddPodWithNetworks env nn st pod networks).1.guidList = st.guidList ∧
      (processAddPodWithNetworks env nn st pod networks).1.passed = st.passed) ∨
    (∃ pod2 g,
      (processAddPodWithNetworks env nn st pod networks).1.passed = st.passed ++ [pod2] ∧
      (processAddPodWithNetworks env nn st pod networks).1.failed = st.failed ∧
      (processAddPodWithNetworks env nn st pod networks).1.guidList = st.guidList ++ [g] ∧
      pod2.uid = pod.uid) := by
  unfold processAddPodWithNetworks
  rcases hn : getPodNetwork networks nn with _ | network
  · left; exact ⟨rfl, rfl, rfl⟩
  · simp only []
    rcases hg : getPodNetworkGuid network with _ | allocatedGuid
    · simp only []
      rcases hgen : env.genGUID st.genCount with _ | guidAddr
      · left; exact ⟨rfl, rfl, rfl⟩
      · simp only []
        rcases ha : env.allocOk pod.uid nn guidAddr with _ | _
        · left; exact ⟨rfl, rfl, rfl⟩
        · simp only [if_true]
          rcases hm : env.marshalNetworks
              (updateNetworkNamed networks nn fun e => setPodNetworkGuid e guidAddr) with _ | netAnn
          · left; exact ⟨rfl, rfl, rfl⟩
          · right; exact ⟨_, guidAddr, rfl, rfl, rfl, rfl⟩
    · simp only []
      rcases ha : env.allocOk pod.uid nn allocatedGuid with _ | _
      · left; exact ⟨rfl, rfl, rfl⟩
      · simp only [if_true]
        rcases hm : env.parseMAC allocatedGuid with _ | guidAddr
        · left; exact ⟨rfl, rfl, rfl⟩
        · right; exact ⟨pod, guidAddr, rfl, rfl, rfl, rfl⟩

/-- The add pass's per-pod loop body either adds the pod to
`failedPods` (leaving the GUID batch and the passed list untouched) or
appends it (possibly with rewritten annotations) to the passed list
together with exactly one batch GUID. -/
theorem processAddPod_cases (env : Env) (nn : String) (st : AddLoopState) (pod : Pod) :
    ((processAddPod env nn st pod).1.failed = st.failed ++ [pod] ∧
      (processAddPod env nn st pod).1.guidList = st.guidList ∧
      (processAddPod env nn st pod).1.passed = st.passed) ∨
    (∃ pod2 g,
      (processAddPod env nn st pod).1.passed = st.passed ++ [pod2] ∧
      (processAddPod env nn st pod).1.failed = st.failed ∧
      (processAddPod env nn st pod).1.guidList = st.guidList ++ [g] ∧
      pod2.uid = pod.uid) := by
  unfold processAddPod
  rcases hl : lookupA st.pnm pod.uid with _ | networks
  · rcases hp : env.parsePodNetAnn pod with _ | networks
    · left; exact ⟨rfl, rfl, rfl⟩
    · exact processAddPodWithNetworks_cases env nn _ pod networks
  · exact processAddPodWithNetworks_cases env nn st pod networks

/-- Every pod of the per-pod loop is classified: the loop never aborts,
each pod lands in exactly one of the passed or failed lists. -/
theorem processAddPods_counts (env : Env) (nn : String) :
    ∀ (pods : List Pod) (st : AddLoopState),
      (processAddPods env nn st pods).1.passed.length +
        (processAddPods env nn st pods).1.failed.length =
      st.passed.length + st.failed.length + pods.length := by
  intro pods
  induction pods with
  | nil => intro st; simp [processAddPods]
  | cons pod rest ih =>
    intro st
    have h := processAddPod_cases env nn st pod
    simp only [processAddPods]
    rcases h with ⟨h1, _, h3⟩ | ⟨pod2, g, h3, h1, _, _⟩ <;>
      rw [ih] <;> simp [h1, h3] <;> omega

/-- C1: counterexample. The claim says a network entry whose
NetworkAttachmentDefinition config is malformed JSON is permanently
removed from addSet within the pass. In `envMalformedJson` the config
fetch succeeds and `json.Unmarshal` fails; the add pass leaves the
entry in the map unchanged (daemon.go:156-160 is a plain `continue`),
so the entry is retained, not removed. -/
theorem C1_counterexample :
    (AddPeriodicUpdate envMalformedJson [("ibnet", MapValue.pods [podA])]).1 =
      [("ibnet", MapValue.pods [podA])] ∧
    ("ibnet", MapValue.pods [podA]) ∈
      (AddPeriodicUpdate envMalformedJson [("ibnet", MapValue.pods [podA])]).1 := by
  constructor
  · rfl
  · exact List.mem_singleton.mpr rfl

/-- C1 (amended): in the add pass, a network whose config is malformed
JSON is retained unchanged in addSet (soft-fail, retried next pass);
only a network whose config fails IB-SRIOV extraction is permanently
removed from addSet within the pass. -/
theorem C1_amended_thm (env : Env) (nn : String) (p0 : Pod) (rest : List Pod)
    (cfg : String) (hC : env.getNetAttConfig p0.ns nn = some cfg) :
    (env.unmarshalConfig cfg = none →
      AddPeriodicUpdate env [(nn, MapValue.pods (p0 :: rest))] =
        ([(nn, MapValue.pods (p0 :: rest))], [Event.getNetAtt p0.ns nn])) ∧
    (∀ spec, env.unmarshalConfig cfg = some spec → env.getIbSriov spec = none →
      AddPeriodicUpdate env [(nn, MapValue.pods (p0 :: rest))] =
        ([], [Event.getNetAtt p0.ns nn])) := by
  constructor
  · intro hU
    simp [AddPeriodicUpdate, addPassAux, addEntryStep, processAddEntryCore,
      applyEntryResult, hC, hU]
  · intro spec hU hI
    simp [AddPeriodicUpdate, addPassAux, addEntryStep, processAddEntryCore,
      applyEntryResult, hC, hU, hI]

/-- C1: witness for the amended theorem at a concrete input. -/
theorem C1_amended_witness :
    envMalformedJson.getNetAttConfig podA.ns "ibnet" = some "cfg" ∧
    envMalformedJson.unmarshalConfig "cfg" = none ∧
    AddPeriodicUpdate envMalformedJson [("ibnet", MapValue.pods [podA])] =
      ([("ibnet", MapValue.pods [podA])], [Event.getNetAtt "default" "ibnet"]) :=
  ⟨rfl, rfl, (C1_amended_thm envMalformedJson "ibnet" podA [] "cfg" rfl).1 rfl⟩

/-- C2: counterexample. The claim says a network whose IB-SRIOV spec
carries the reserved PKey 0x7fff makes no SM call (true) and is removed
from addSet as a permanent skip (false). In `envReservedPKey` the pod's
GUID is allocated, the PKey parse rejects 0x7fff, and the pass leaves
the entry in the map unchanged (daemon.go:252-256 is a plain
`continue`): the entry is retained for retry, not removed. -/
theorem C2_counterexample :
    (AddPeriodicUpdate envReservedPKey [("ibnet", MapValue.pods [podA])]).1 =
      [("ibnet", MapValue.pods [podA])] ∧
    (AddPeriodicUpdate envReservedPKey [("ibnet", MapValue.pods [podA])]).2.filter
      Event.isSM = [] := by
  constructor
  · rfl
  · rfl

/-- C2 (amended): for a network whose IB-SRIOV spec carries a non-empty
PKey on which the parse fails — in particular the reserved values
0x0000 and 0x7fff — and whose per-pod loop produced a non-empty GUID
batch, the add pass makes no SM call for that network, and the entry is
retained unchanged in addSet for the next pass (soft-fail), not
removed. -/
theorem C2_amended_thm (env : Env) (nn : String) (p0 : Pod) (rest : List Pod)
    (cfg : String) (spec : List (String × String)) (ibSpec : IbSriovCniSpec)
    (hC : env.getNetAttConfig p0.ns nn = some cfg)
    (hU : env.unmarshalConfig cfg = some spec)
    (hI : env.getIbSriov spec = some ibSpec)
    (hP : ¬ibSpec.pkey = "")
    (hparse : parsePKey ibSpec.pkey = none)
    (hgl : (addLoopResult env nn (p0 :: rest)).guidList ≠ []) :
    parsePKey "0x0000" = none ∧ parsePKey "0x7fff" = none ∧
    (AddPeriodicUpdate env [(nn, MapValue.pods (p0 :: rest))]).1 =
      [(nn, MapValue.pods (p0 :: rest))] ∧
    (∀ e ∈ (AddPeriodicUpdate env [(nn, MapValue.pods (p0 :: rest))]).2,
      e.isSM = false) := by
  refine ⟨rfl, rfl, ?_, ?_⟩
  · simp only [AddPeriodicUpdate, addPassAux, addEntryStep, processAddEntryCore,
      hC, hU, hI]
    rcases hgl2 : (addLoopResult env nn (p0 :: rest)).guidList with _ | ⟨g, gs⟩
    · exact absurd hgl2 hgl
    · simp only [addLoopResult] at hgl2
      simp [hgl2, hP, hparse, applyEntryResult]
  · intro e he
    simp only [AddPeriodicUpdate, addPassAux, addEntryStep, processAddEntryCore,
      hC, hU, hI] at he
    rcases hgl2 : (addLoopResult env nn (p0 :: rest)).guidList with _ | ⟨g, gs⟩
    · exact absurd hgl2 hgl
    · simp only [addLoopResult] at hgl2
      simp only [hgl2, hP, hparse, if_neg, ite_false, List.append_nil] at he
      rcases List.mem_cons.mp he with rfl | he2
      · rfl
      · exact isPodLoop_not_isSM e
          (processAddPods_events env nn (p0 :: rest) ⟨[], [], [], [], 0⟩ e he2)

/-- C2: witness for the amended theorem at a concrete input. -/
theorem C2_amended_witness :
    parsePKey "0x7fff" = none ∧
    (addLoopResult envReservedPKey "ibnet" [podA]).guidList ≠ [] ∧
    (AddPeriodicUpdate envReservedPKey [("ibnet", MapValue.pods [podA])]).1 =
      [("ibnet", MapValue.pods [podA])] :=
  ⟨by decide, by decide,
    (C2_amended_thm envReservedPKey "ibnet" podA [] "cfg" [("type", "ib-sriov")]
      ⟨"0x7fff"⟩ rfl rfl rfl (by decide) (by decide) (by decide)).2.2.1⟩

/-- C3: counterexample. The claim says that when `RemoveGUIDsFromPKey`
for the removed-pods batch returns an error, the pass still performs
the end-of-pass bookkeeping (here `failedPods` is empty, so the entry
should be removed from addSet). In `envNotFoundRemoveFails` the single
pod passes, its annotation write hits "not found", its GUID enters the
removed batch, and `RemoveGuidsFromPKey` fails: the code `continue`s
(daemon.go:299-303), so the entry is left in addSet with its original
value instead of being removed. -/
theorem C3_counterexample :
    (AddPeriodicUpdate envNotFoundRemoveFails [("ibnet", MapValue.pods [podA])]).1 =
      [("ibnet", MapValue.pods [podA])] ∧
    Event.removeGuidsFromPKey 5 ["02:00:00:00:00:00:00:01"] false ∈
      (AddPeriodicUpdate envNotFoundRemoveFails [("ibnet", MapValue.pods [podA])]).2 := by
  constructor
  · rfl
  · decide

/-- C3 (amended): the `RemoveGUIDsFromPKey` call for the removed-pods
batch is not best-effort: when it fails, the pass skips the end-of-pass
bookkeeping for that network and leaves the entry in addSet unchanged
(with its full original pod list); only when the call succeeds does the
pass remove the entry (failedPods empty) or replace it with the failing
subset. -/
theorem C3_amended_thm (env : Env) (nn : String) (p0 : Pod) (rest : List Pod)
    (cfg : String) (spec : List (String × String)) (ibSpec : IbSriovCniSpec) (pk : Nat)
    (hC : env.getNetAttConfig p0.ns nn = some cfg)
    (hU : env.unmarshalConfig cfg = some spec)
    (hI : env.getIbSriov spec = some ibSpec)
    (hP : ¬ibSpec.pkey = "")
    (hpk : parsePKey ibSpec.pkey = some pk)
    (hgl : (addLoopResult env nn (p0 :: rest)).guidList ≠ [])
    (hadd : env.addGuidsOk pk (addLoopResult env nn (p0 :: rest)).guidList = true)
    (hrg : (passedLoopResult env nn (p0 :: rest)).removedGuids ≠ []) :
    (env.removeGuidsOk pk (passedLoopResult env nn (p0 :: rest)).removedGuids = false →
      (AddPeriodicUpdate env [(nn, MapValue.pods (p0 :: rest))]).1 =
        [(nn, MapValue.pods (p0 :: rest))]) ∧
    (env.removeGuidsOk pk (passedLoopResult env nn (p0 :: rest)).removedGuids = true →
      (AddPeriodicUpdate env [(nn, MapValue.pods (p0 :: rest))]).1 =
        (if (passedLoopResult env nn (p0 :: rest)).failed = [] then []
         else [(nn, MapValue.pods (passedLoopResult env nn (p0 :: rest)).failed)])) := by
  rcases hgl2 : (addLoopResult env nn (p0 :: rest)).guidList with _ | ⟨g, gs⟩
  · exact absurd hgl2 hgl
  rcases hrg2 : (passedLoopResult env nn (p0 :: rest)).removedGuids with _ | ⟨r, rs⟩
  · exact absurd hrg2 hrg
  simp only [addLoopResult] at hgl2 hadd
  simp only [passedLoopResult, addLoopResult] at hrg2
  rw [hgl2] at hadd hrg2
  constructor
  · intro hrem
    simp [AddPeriodicUpdate, addPassAux, addEntryStep, processAddEntryCore,
      addEntryFinish, applyEntryResult, hC, hU, hI, hP, hpk, hgl2, hadd, hrg2, hrem]
  · intro hrem
    simp only [AddPeriodicUpdate, addPassAux, addEntryStep, processAddEntryCore,
      addEntryFinish, applyEntryResult, hC, hU, hI, hP, hpk, hgl2, hadd, hrg2, hrem]
    simp [passedLoopResult, addLoopResult, hgl2, hrg2]
    split <;> simp_all

/-- C3: witness for the amended theorem at a concrete input. -/
theorem C3_amended_witness :
    envNotFoundRemoveFails.removeGuidsOk 5
      (passedLoopResult envNotFoundRemoveFails "ibnet" [podA]).removedGuids = false ∧
    (AddPeriodicUpdate envNotFoundRemoveFails [("ibnet", MapValue.pods [podA])]).1 =
      [("ibnet", MapValue.pods [podA])] :=
  ⟨rfl,
    (C3_amended_thm envNotFoundRemoveFails "ibnet" podA [] "cfg" [("type", "ib-sriov")]
      ⟨"0x5"⟩ 5 rfl rfl rfl (by decide) (by decide) (by decide) (by decide)
      (by decide)).1 rfl⟩

/-- C4: in the delete pass on a network with a non-empty (parseable)
PKey and a non-empty GUID batch: when `RemoveGuidsFromPKey` fails, no
GUID is released and the entry is left in deleteSet unchanged; when it
succeeds, the trace is exactly the successful SM removal followed by
the `ReleaseGUID` calls for the batch, so every release happens only
after the SM removal succeeded. -/
theorem C4_thm (env : Env) (nn : String) (p0 : Pod) (rest : List Pod)
    (cfg : String) (spec : List (String × String)) (ibSpec : IbSriovCniSpec) (pk : Nat)
    (hC : env.getNetAttConfig p0.ns nn = some cfg)
    (hU : env.unmarshalConfig cfg = some spec)
    (hI : env.getIbSriov spec = some ibSpec)
    (hP : ¬ibSpec.pkey = "")
    (hpk : parsePKey ibSpec.pkey = some pk)
    (hgl : (delLoopResult env nn (p0 :: rest)).guidList ≠ []) :
    (env.removeGuidsOk pk (delLoopResult env nn (p0 :: rest)).guidList = false →
      (DeletePeriodicUpdate env [(nn, MapValue.pods (p0 :: rest))]).1 =
        [(nn, MapValue.pods (p0 :: rest))] ∧
      (∀ g, Event.releaseGUID g ∉
        (DeletePeriodicUpdate env [(nn, MapValue.pods (p0 :: rest))]).2)) ∧
    (env.removeGuidsOk pk (delLoopResult env nn (p0 :: rest)).guidList = true →
      (DeletePeriodicUpdate env [(nn, MapValue.pods (p0 :: rest))]).2 =
        [Event.getNetAtt p0.ns nn,
         Event.removeGuidsFromPKey pk (delLoopResult env nn (p0 :: rest)).guidList true] ++
          (delLoopResult env nn (p0 :: rest)).guidList.map Event.releaseGUID) := by
  rcases hgl2 : (delLoopResult env nn (p0 :: rest)).guidList with _ | ⟨g, gs⟩
  · exact absurd hgl2 hgl
  simp only [delLoopResult] at hgl2
  constructor
  · intro hrem
    constructor
    · simp [DeletePeriodicUpdate, deleteEntryStep, processDeleteEntryCore,
        applyEntryResult, hC, hU, hI, hP, hpk, hgl2, hrem]
    · intro g2
      simp [DeletePeriodicUpdate, deleteEntryStep, processDeleteEntryCore,
        applyEntryResult, hC, hU, hI, hP, hpk, hgl2, hrem]
  · intro hrem
    simp [DeletePeriodicUpdate, deleteEntryStep, processDeleteEntryCore,
      applyEntryResult, hC, hU, hI, hP, hpk, hgl2, hrem, delLoopResult]

/-- C4: witness at a concrete input (SM removal fails: the entry is
kept and nothing is released). -/
theorem C4_witness :
    (delLoopResult envDelRemoveFails "ibnet" [podA]).guidList ≠ [] ∧
    envDelRemoveFails.removeGuidsOk 5
      (delLoopResult envDelRemoveFails "ibnet" [podA]).guidList = false ∧
    (DeletePeriodicUpdate envDelRemoveFails [("ibnet", MapValue.pods [podA])]).1 =
      [("ibnet", MapValue.pods [podA])] :=
  ⟨by decide, rfl,
    ((C4_thm envDelRemoveFails "ibnet" podA [] "cfg" [("type", "ib-sriov")]
      ⟨"0x5"⟩ 5 rfl rfl rfl (by decide) (by decide) (by decide)).1 rfl).1⟩

/-- C5: in the passed-pods annotation loop, when the serialized
annotations are written back and the write fails with "not found", the
pod's GUID is released (a `ReleaseGUID` call appears in the trace) and
appended to the removed-GUIDs batch, and the pod is not added to
`failedPods`; any other write failure adds the pod (with its rewritten
annotations) to `failedPods`, releases nothing and leaves the
removed-GUIDs batch unchanged. -/
theorem C5_thm (env : Env) (nn : String) (st : PassedLoopState) (pod : Pod)
    (g s : String)
    (hm : env.marshalNetworks
      (updateNetworkNamed ((lookupA st.pnm pod.uid).getD []) nn markConfigured) = some s) :
    (env.setAnnotsRes pod.uid = SetAnnotsRes.errNotFound →
      (processPassedPod env nn st (pod, g)).1.removedGuids = st.removedGuids ++ [g] ∧
      (processPassedPod env nn st (pod, g)).1.failed = st.failed ∧
      Event.releaseGUID g ∈ (processPassedPod env nn st (pod, g)).2) ∧
    (env.setAnnotsRes pod.uid = SetAnnotsRes.errOther →
      ∃ pod2, pod2.uid = pod.uid ∧
        (processPassedPod env nn st (pod, g)).1.failed = st.failed ++ [pod2] ∧
        (processPassedPod env nn st (pod, g)).1.removedGuids = st.removedGuids ∧
        (∀ g2, Event.releaseGUID g2 ∉ (processPassedPod env nn st (pod, g)).2)) := by
  constructor
  · intro hs
    refine ⟨?_, ?_, ?_⟩ <;> simp [processPassedPod, hm, hs]
  · intro hs
    refine ⟨{ pod with
        annots := setA pod.annots networkAttachmentAnnotKey s }, rfl, ?_, ?_, ?_⟩ <;>
      simp [processPassedPod, hm, hs]

/-- C5: witness at a concrete input (the "not found" branch). -/
theorem C5_witness :
    envNotFoundRemoveFails.setAnnotsRes podA.uid = SetAnnotsRes.errNotFound ∧
    (processPassedPod envNotFoundRemoveFails "ibnet"
        ⟨[("u1", netsUser)], [], []⟩ (podA, "02:00:00:00:00:00:00:01")).1.removedGuids =
      ["02:00:00:00:00:00:00:01"] ∧
    Event.releaseGUID "02:00:00:00:00:00:00:01" ∈
      (processPassedPod envNotFoundRemoveFails "ibnet"
        ⟨[("u1", netsUser)], [], []⟩ (podA, "02:00:00:00:00:00:00:01")).2 :=
  ⟨rfl,
    ((C5_thm envNotFoundRemoveFails "ibnet" ⟨[("u1", netsUser)], [], []⟩ podA
      "02:00:00:00:00:00:00:01" "nets" rfl).1 rfl).1,
    ((C5_thm envNotFoundRemoveFails "ibnet" ⟨[("u1", netsUser)], [], []⟩ podA
      "02:00:00:00:00:00:00:01" "nets" rfl).1 rfl).2.2⟩

/-- C6: a workload that fails a per-workload step after a successful
`AllocateGUID` (user GUID parse failure, serialization failure, ...) is
recorded in `failedPods` while the GUID batch and the passed list are
untouched; the per-pod loop body never calls `ReleaseGUID` (no
rollback), and the loop classifies every pod of the list (processing of
the remaining workloads continues: passed + failed grow by exactly the
number of pods). -/
theorem C6_thm (env : Env) (nn : String) (st : AddLoopState) (pod : Pod) (g : String)
    (_halloc : Event.allocGUID pod.uid nn g true ∈ (processAddPod env nn st pod).2)
    (hfail : (processAddPod env nn st pod).1.failed = st.failed ++ [pod]) :
    (processAddPod env nn st pod).1.guidList = st.guidList ∧
    (processAddPod env nn st pod).1.passed = st.passed ∧
    (∀ g2, Event.releaseGUID g2 ∉ (processAddPod env nn st pod).2) ∧
    (∀ (pods : List Pod) (st2 : AddLoopState),
      (processAddPods env nn st2 pods).1.passed.length +
        (processAddPods env nn st2 pods).1.failed.length =
      st2.passed.length + st2.failed.length + pods.length) := by
  rcases processAddPod_cases env nn st pod with ⟨h1, h2, h3⟩ | ⟨pod2, g2, h3, h1, h2, _⟩
  · refine ⟨h2, h3, ?_, processAddPods_counts env nn⟩
    intro g2 hmem
    have h := processAddPod_events env nn st pod _ hmem
    simp [Event.isPodLoop] at h
  · exfalso
    have h := h1.symm.trans hfail
    simp at h

/-- C6: witness at a concrete input (user-supplied GUID allocated, then
its hardware-address parse fails). -/
theorem C6_witness :
    Event.allocGUID "u1" "ibnet" "02:00:00:00:00:00:00:01" true ∈
      (processAddPod envBadMac "ibnet" ⟨[("u1", netsUser)], [], [], [], 0⟩ podA).2 ∧
    (processAddPod envBadMac "ibnet" ⟨[("u1", netsUser)], [], [], [], 0⟩ podA).1.failed =
      [] ++ [podA] ∧
    (processAddPod envBadMac "ibnet" ⟨[("u1", netsUser)], [], [], [], 0⟩ podA).1.guidList = [] ∧
    (processAddPod envBadMac "ibnet" ⟨[("u1", netsUser)], [], [], [], 0⟩ podA).1.passed = [] :=
  ⟨by decide, by decide,
    (C6_thm envBadMac "ibnet" ⟨[("u1", netsUser)], [], [], [], 0⟩ podA
      "02:00:00:00:00:00:00:01" (by decide) (by decide)).1,
    (C6_thm envBadMac "ibnet" ⟨[("u1", netsUser)], [], [], [], 0⟩ podA
      "02:00:00:00:00:00:00:01" (by decide) (by decide)).2.1⟩

/-- C7: a network entry that a pass processes to completion (its core
result is `completed failedPods`, i.e. no soft-fail skip and no
permanent removal of the whole network) ends with the entry removed
from the map when `failedPods` is empty, and otherwise with the entry's
value replaced by exactly the failed list — in both the add and the
delete pass. -/
theorem C7_thm (env : Env) (nn : String) (v : MapValue) (f : List Pod) :
    ((processAddEntryCore env nn v [] 0).1 = EntryResult.completed f →
      (AddPeriodicUpdate env [(nn, v)]).1 =
        if f = [] then [] else [(nn, MapValue.pods f)]) ∧
    ((processDeleteEntryCore env nn v).1 = EntryResult.completed f →
      (DeletePeriodicUpdate env [(nn, v)]).1 =
        if f = [] then [] else [(nn, MapValue.pods f)]) := by
  constructor
  · intro h
    simp only [AddPeriodicUpdate, addPassAux, addEntryStep, h, applyEntryResult]
    by_cases hf : f = [] <;> simp [hf]
  · intro h
    simp only [DeletePeriodicUpdate, deleteEntryStep, h, applyEntryResult]
    by_cases hf : f = [] <;> simp [hf]

/-- C7: witness at a concrete input (one pod whose annotations fail to
parse: the pass completes with `failedPods = [podA]` and the entry's
value is replaced by exactly that list). -/
theorem C7_witness :
    (processAddEntryCore envBadPodAnn "ibnet" (MapValue.pods [podA]) [] 0).1 =
      EntryResult.completed [podA] ∧
    (AddPeriodicUpdate envBadPodAnn [("ibnet", MapValue.pods [podA])]).1 =
      [("ibnet", MapValue.pods [podA])] :=
  ⟨by decide,
    (C7_thm envBadPodAnn "ibnet" (MapValue.pods [podA]) [podA]).1 (by decide)⟩

/-- C8: a pending workload whose selection entry already carries a GUID
gets exactly that GUID allocated: the per-pod step is a single
successful `AllocateGUID` call with the supplied value (in particular
no `GenerateGUID` call), the parsed address joins the batch that the SM
call receives, the stored selections (hence the `guid` field) are left
unchanged, and the later configured-marking also preserves the `guid`
field. -/
theorem C8_thm (env : Env) (nn : String) (st : AddLoopState) (pod : Pod)
    (networks : List NetworkSelectionElement) (e : NetworkSelectionElement) (g a : String)
    (hn : lookupA st.pnm pod.uid = some networks)
    (he : getPodNetwork networks nn = some e)
    (hg : getPodNetworkGuid e = some g)
    (hal : env.allocOk pod.uid nn g = true)
    (hmac : env.parseMAC g = some a) :
    processAddPod env nn st pod =
      ({ st with guidList := st.guidList ++ [a], passed := st.passed ++ [pod] },
       [Event.allocGUID pod.uid nn g true]) ∧
    (∀ res, Event.genGUID res ∉ (processAddPod env nn st pod).2) ∧
    getPodNetworkGuid (markConfigured e) = some g := by
  have hmain : processAddPod env nn st pod =
      ({ st with guidList := st.guidList ++ [a], passed := st.passed ++ [pod] },
       [Event.allocGUID pod.uid nn g true]) := by
    simp [processAddPod, processAddPodWithNetworks, hn, he, hg, hal, hmac]
  refine ⟨hmain, ?_, ?_⟩
  · intro res hmem
    rw [hmain] at hmem
    simp at hmem
  · rcases e with ⟨name, args⟩
    cases args with
    | none => simp [getPodNetworkGuid] at hg
    | some args =>
      simp only [getPodNetworkGuid, markConfigured, Option.getD] at hg ⊢
      rw [lookupA_setA_ne args infiniBandAnnotKey "guid" configuredInfiniBandPod (by decide)]
      exact hg

/-- C8: witness at a concrete input (pod with pre-set GUID; the pool
call uses exactly that GUID, no generation, batch and annotations as
claimed). -/
theorem C8_witness :
    processAddPod baseEnv "ibnet" ⟨[("u1", netsUser)], [], [], [], 0⟩ podA =
      (⟨[("u1", netsUser)], ["02:00:00:00:00:00:00:01"], [podA], [], 0⟩,
       [Event.allocGUID "u1" "ibnet" "02:00:00:00:00:00:00:01" true]) ∧
    getPodNetworkGuid (markConfigured ⟨"ibnet", some [("guid", "02:00:00:00:00:00:00:01")]⟩) =
      some "02:00:00:00:00:00:00:01" :=
  ⟨(C8_thm baseEnv "ibnet" ⟨[("u1", netsUser)], [], [], [], 0⟩ podA netsUser
      ⟨"ibnet", some [("guid", "02:00:00:00:00:00:00:01")]⟩
      "02:00:00:00:00:00:00:01" "02:00:00:00:00:00:00:01" rfl rfl rfl rfl rfl).1,
    (C8_thm baseEnv "ibnet" ⟨[("u1", netsUser)], [], [], [], 0⟩ podA netsUser
      ⟨"ibnet", some [("guid", "02:00:00:00:00:00:00:01")]⟩
      "02:00:00:00:00:00:00:01" "02:00:00:00:00:00:00:01" rfl rfl rfl rfl rfl).2.2⟩

/-- A workload the delete pass skips: its annotations parse, the
selection entry for the network exists, and that entry is not marked
InfiniBand-configured. -/
def delSkipCond (env : Env) (nn : String) (pod : Pod) : Prop :=
  ∃ networks e, env.parsePodNetAnn pod = some networks ∧
    getPodNetwork networks nn = some e ∧ isConfiguredWithInfiniBand e = false

/-- C9: in the delete pass, a pending workload whose selection entry is
not marked InfiniBand-configured is skipped: the per-pod loop state is
unchanged (no GUID joins the removal batch, the pod does not join
`failedPods`), and a network all of whose pending workloads are such
skips completes with an empty batch and empty `failedPods`, makes no SM
or pool call, and is removed from deleteSet. -/
theorem C9_thm (env : Env) (nn : String) :
    (∀ (st : DelLoopState) (pod : Pod), delSkipCond env nn pod →
      processDeletePod env nn st pod = st) ∧
    (∀ (p0 : Pod) (rest : List Pod) (cfg : String) (spec : List (String × String))
        (ibSpec : IbSriovCniSpec),
      env.getNetAttConfig p0.ns nn = some cfg →
      env.unmarshalConfig cfg = some spec →
      env.getIbSriov spec = some ibSpec →
      (∀ pod ∈ (p0 :: rest), delSkipCond env nn pod) →
      DeletePeriodicUpdate env [(nn, MapValue.pods (p0 :: rest))] =
        ([], [Event.getNetAtt p0.ns nn])) := by
  have hskip : ∀ (st : DelLoopState) (pod : Pod), delSkipCond env nn pod →
      processDeletePod env nn st pod = st := by
    rintro st pod ⟨networks, e, h1, h2, h3⟩
    simp [processDeletePod, h1, h2, h3]
  refine ⟨hskip, ?_⟩
  intro p0 rest cfg spec ibSpec hC hU hI hall
  have hloop : ∀ (pods : List Pod) (st : DelLoopState),
      (∀ pod ∈ pods, delSkipCond env nn pod) → processDeletePods env nn st pods = st := by
    intro pods
    induction pods with
    | nil => intro st _; rfl
    | cons p ps ih =>
      intro st hps
      simp only [processDeletePods]
      rw [hskip st p (hps p (by simp))]
      exact ih st (fun q hq => hps q (by simp [hq]))
  have hst : processDeletePods env nn ⟨[], []⟩ (p0 :: rest) = ⟨[], []⟩ := hloop _ _ hall
  simp only [DeletePeriodicUpdate, deleteEntryStep, processDeleteEntryCore,
    hC, hU, hI, hst, List.map_nil, ite_self]
  simp [applyEntryResult]

/-- C9: witness at a concrete input (one pod, selections parse, entry
unconfigured: the delete pass removes the entry and only fetches the
attachment definition). -/
theorem C9_witness :
    delSkipCond baseEnv "ibnet" podA ∧
    DeletePeriodicUpdate baseEnv [("ibnet", MapValue.pods [podA])] =
      ([], [Event.getNetAtt "default" "ibnet"]) :=
  ⟨⟨netsUser, _, rfl, rfl, rfl⟩,
    (C9_thm baseEnv "ibnet").2 podA [] "cfg" [("type", "ib-sriov")] ⟨"0x5"⟩ rfl rfl rfl
      (by
        rintro pod hp
        rcases List.mem_singleton.mp hp with rfl
        exact ⟨netsUser, _, rfl, rfl, rfl⟩)⟩

/-- An inert add-map entry step: a value that failed the type assertion
or an empty pod list is skipped before any collaborator call, left
unchanged. -/
theorem addEntryStep_inert (env : Env) (pnm : PNM) (gen : Nat) (nn : String)
    (v : MapValue) (hv : v = MapValue.other ∨ v = MapValue.pods []) :
    addEntryStep env pnm gen nn v = (some v, pnm, gen, []) := by
  rcases hv with rfl | rfl <;> rfl

/-- Same for the delete pass. -/
theorem deleteEntryStep_inert (env : Env) (nn : String) (v : MapValue)
    (hv : v = MapValue.other ∨ v = MapValue.pods []) :
    deleteEntryStep env nn v = (some v, []) := by
  rcases hv with rfl | rfl <;> rfl

/-- An inert entry survives one whole add pass, at any threaded state. -/
theorem addPass_mem_inert (env : Env) (nn : String) (v : MapValue)
    (hv : v = MapValue.other ∨ v = MapValue.pods []) :
    ∀ (m : List (String × MapValue)) (pnm : PNM) (gen : Nat),
      (nn, v) ∈ m → (nn, v) ∈ (addPassAux env pnm gen m).1 := by
  intro m
  induction m with
  | nil => intro pnm gen h; simp at h
  | cons p rest ih =>
    intro pnm gen h
    obtain ⟨nn', v'⟩ := p
    rcases List.mem_cons.mp h with heq | hmem
    · cases heq
      simp only [addPassAux, addEntryStep_inert env pnm gen nn v hv]
      exact List.mem_cons_self _ _
    · simp only [addPassAux]
      rcases h1 : (addEntryStep env pnm gen nn' v').1 with _ | v2 <;> simp only [h1]
      · exact ih _ _ hmem
      · exact List.mem_cons_of_mem _ (ih _ _ hmem)

/-- An inert entry survives one whole delete pass. -/
theorem delPass_mem_inert (env : Env) (nn : String) (v : MapValue)
    (hv : v = MapValue.other ∨ v = MapValue.pods []) :
    ∀ (m : List (String × MapValue)),
      (nn, v) ∈ m → (nn, v) ∈ (DeletePeriodicUpdate env m).1 := by
  intro m
  induction m with
  | nil => intro h; simp at h
  | cons p rest ih =>
    intro h
    obtain ⟨nn', v'⟩ := p
    rcases List.mem_cons.mp h with heq | hmem
    · cases heq
      simp only [DeletePeriodicUpdate, deleteEntryStep_inert env nn v hv]
      exact List.mem_cons_self _ _
    · simp only [DeletePeriodicUpdate]
      rcases h1 : (deleteEntryStep env nn' v').1 with _ | v2 <;> simp only [h1]
      · exact ih hmem
      · exact List.mem_cons_of_mem _ (ih hmem)

/-- C10: a network entry whose stored value failed the pod-list type
assertion, or is an empty pod list, is skipped by both passes before
any orchestrator, pool or SM call (empty trace for it), is left in its
map unchanged, and therefore persists across arbitrarily many passes. -/
theorem C10_thm (env : Env) (nn : String) (v : MapValue) (pnm : PNM) (gen : Nat)
    (hv : v = MapValue.other ∨ v = MapValue.pods []) :
    addEntryStep env pnm gen nn v = (some v, pnm, gen, []) ∧
    deleteEntryStep env nn v = (some v, []) ∧
    ∀ (m : List (String × MapValue)) (k : Nat), (nn, v) ∈ m →
      (nn, v) ∈ addIter env k m ∧ (nn, v) ∈ delIter env k m := by
  refine ⟨addEntryStep_inert env pnm gen nn v hv, deleteEntryStep_inert env nn v hv, ?_⟩
  intro m k
  induction k generalizing m with
  | zero => intro h; exact ⟨h, h⟩
  | succ k ih =>
    intro h
    exact ⟨(ih _ (addPass_mem_inert env nn v hv m [] 0 h)).1,
           (ih _ (delPass_mem_inert env nn v hv m h)).2⟩

/-- C10: witness at a concrete input (a non-pod-list value survives
three passes of each kind untouched). -/
theorem C10_witness :
    addEntryStep baseEnv [] 0 "ibnet" MapValue.other = (some MapValue.other, [], 0, []) ∧
    deleteEntryStep baseEnv "ibnet" MapValue.other = (some MapValue.other, []) ∧
    ("ibnet", MapValue.other) ∈ addIter baseEnv 3 [("ibnet", MapValue.other)] ∧
    ("ibnet", MapValue.other) ∈ delIter baseEnv 3 [("ibnet", MapValue.other)] :=
  ⟨(C10_thm baseEnv "ibnet" MapValue.other [] 0 (Or.inl rfl)).1,
   (C10_thm baseEnv "ibnet" MapValue.other [] 0 (Or.inl rfl)).2.1,
   ((C10_thm baseEnv "ibnet" MapValue.other [] 0 (Or.inl rfl)).2.2 _ 3
     (List.mem_singleton.mpr rfl)).1,
   ((C10_thm baseEnv "ibnet" MapValue.other [] 0 (Or.inl rfl)).2.2 _ 3
     (List.mem_singleton.mpr rfl)).2⟩

end IbKube
